import Mathlib

/-!
Shallow embedding of the bao-bundler asset pipeline (src/index.ts).

The repository file src/index.ts contains three revisions of the same
module.  The first revision (lines 1-263) carries the current step
execution logic (Project.executeStep, the four-way CopyRunner dispatch,
the FolderFlow/FileFlow/VoidFileFlow variants); the second revision
(lines 264-476) carries the constant-id VoidFlow variant and the
fire-and-forget build loop; the third revision (lines 477-773) carries
the registry-based manifest codec (static Project.loadFromManifest and
the steps-serializing Project.toJSON).  Each definition below names the
revision it embeds.
-/

namespace Bao

/-- The value space of flow resolution results in the TypeScript source:
`string | string[] | undefined`. -/
inductive Sel where
  | undef : Sel
  | str : String → Sel
  | arr : List String → Sel
deriving DecidableEq, Repr

/-- JavaScript truthiness of a selector, as tested by the guard
`if (!source || !dest)` in CopyRunner.run: `undefined` and the empty
string are falsy, every array (including the empty array) is truthy. -/
def Sel.truthy : Sel → Bool
  | .undef => false
  | .str s => !s.isEmpty
  | .arr _ => true

/-- Whether a selector is an array, as tested by `Array.isArray`. -/
def Sel.isArr : Sel → Bool
  | .arr _ => true
  | _ => false

/-- Model of node's `path.basename`: the last `/`-separated component
(path normalization corner cases such as trailing slashes are outside
the inputs this pipeline produces). -/
def basename (p : String) : String :=
  (p.splitOn "/").getLastD p

/-- Model of node's `path.join` on two components: joined with `/`
(normalization of duplicate separators elided, as above). -/
def pathJoin (a b : String) : String :=
  a ++ "/" ++ b

/-- Diagnostic printed by CopyRunner.run when either selector is falsy. -/
def noSelectorMsg : String :=
  "No source or destination provided to CopyRunner."

/-- Diagnostic printed by CopyRunner.run in the scalar-source /
array-destination branch. -/
def scalarListWarning : String :=
  "Warning: Source is a single string but destination is an array. Using the first element of destination."

/-- The node runtime error raised by `cp` when its destination argument
is `undefined` (out-of-range array index). -/
def invalidArgMsg : String :=
  "ERR_INVALID_ARG_TYPE"

/-- The `Copying from x to y` log line printed before each `cp` call. -/
def copyMsg (s d : String) : String :=
  "Copying from " ++ s ++ " to " ++ d

/-- Result of one CopyRunner.run call: the console lines it printed, the
(source, destination) pairs actually handed to `cp` in order, and the
error it threw, if any. -/
structure RunResult where
  logs : List String
  copies : List (String × String)
  error : Option String
deriving DecidableEq, Repr

/-- The array/array branch of CopyRunner.run (revision 1, lines 108-114):
`for (let i = 0; i < source.length; i++) cp(source[i], dest[i])`.  When
`i` runs past the end of `dest`, `dest[i]` is `undefined`; the log line
is printed and then `cp` throws before copying. -/
def copyPairLoop : List String → List String → List String × List (String × String) × Option String
  | [], _ => ([], [], none)
  | s :: _, [] => ([copyMsg s "undefined"], [], some invalidArgMsg)
  | s :: ss, d :: ds =>
    let r := copyPairLoop ss ds
    (copyMsg s d :: r.1, (s, d) :: r.2.1, r.2.2)

/-- CopyRunner.run (revision 1, lines 99-139): the falsiness guard
followed by the four-way dispatch on the selector shapes. -/
def copyRunnerRun (source dest : Sel) : RunResult :=
  if !source.truthy || !dest.truthy then
    ⟨[noSelectorMsg], [], none⟩
  else
    match source, dest with
    | .arr s, .arr d =>
      let r := copyPairLoop s d
      ⟨r.1, r.2.1, r.2.2⟩
    | .arr s, .str d =>
      ⟨s.map (fun src => copyMsg src (pathJoin d (basename src))),
       s.map (fun src => (src, pathJoin d (basename src))), none⟩
    | .str s, .arr d =>
      match d with
      | [] => ⟨[scalarListWarning, copyMsg s "undefined"], [], some invalidArgMsg⟩
      | d0 :: _ => ⟨[scalarListWarning, copyMsg s d0], [(s, d0)], none⟩
    | .str s, .str d => ⟨[copyMsg s d], [(s, d)], none⟩
    | _, _ => ⟨[], [], none⟩

/-- The Project's `flows` field: a `Record<string, Set<string>>`, modelled
as an insertion-ordered association list whose values are the sets'
iteration orders (duplicate-free lists). -/
abbrev FlowsMap := List (String × List String)

/-- JavaScript property read `flows[id]`. -/
def lookupFlows (m : FlowsMap) (k : String) : Option (List String) :=
  (m.find? (fun e => e.1 == k)).map (·.2)

/-- JavaScript property write `flows[id] = v`: overwrites an existing key
in place, appends a fresh key at the end. -/
def updateFlows : FlowsMap → String → List String → FlowsMap
  | [], k, v => [(k, v)]
  | (k', v') :: rest, k, v =>
    if k' == k then (k, v) :: rest else (k', v') :: updateFlows rest k v

/-- The elements of `new Set(list)` in iteration order: each element is
kept at its first occurrence and skipped when already seen. -/
def dedupGo : List String → List String → List String
  | [], _ => []
  | x :: xs, seen =>
    if seen.contains x then dedupGo xs seen else x :: dedupGo xs (x :: seen)

/-- The iteration order of `new Set(list)`: first occurrences, in order. -/
def dedupKeepFirst (l : List String) : List String :=
  dedupGo l []

/-- Project.executeStep (revision 1, lines 194-217), with the runner call
defunctionalized: returns the updated `flows` map together with the
`(source, dest)` pair passed to `runner.run`.  For an array resolution
the tracked set becomes
`new Set([...(flows[id] ?? []), ...files].filter(f => files.includes(f)))`
and the runner receives `Array.from` of it; otherwise `flows` is
untouched and the resolution is passed through. -/
def executeStepCore (fl : FlowsMap) (id : String) (res : Sel × Sel) :
    FlowsMap × (Sel × Sel) :=
  match res with
  | (files, destPath) =>
    match files with
    | .arr filesArray =>
      let old := (lookupFlows fl id).getD []
      let merged :=
        dedupKeepFirst ((old ++ filesArray).filter (fun f => filesArray.contains f))
      (updateFlows fl id merged, (.arr merged, destPath))
    | f => (fl, (f, destPath))

/-- Constructor configuration of FolderFlow (revision 1, lines 20-31):
`{source, dest, expand?, extension?}`.  The optional `expand` defaults to
a falsy value, so it is modelled as a Bool. -/
structure FolderConfig where
  source : String
  dest : String
  expand : Bool
  extension : Option String
deriving DecidableEq, Repr

/-- Constructor configuration of FileFlow: `{source, dest}`. -/
structure FileConfig where
  source : String
  dest : String
deriving DecidableEq, Repr

/-- The Flow variants of revision 1: FolderFlow, FileFlow, and
VoidFileFlow (exported there as VoidFlow). -/
inductive FlowV1 where
  | folder : FolderConfig → FlowV1
  | file : FileConfig → FlowV1
  | voidFile : String → FlowV1
deriving DecidableEq, Repr

/-- The truthiness test `config.extension ?` used in both the FolderFlow
id and its find invocation: an empty extension string behaves as absent. -/
def FolderConfig.extFilter (c : FolderConfig) : Option String :=
  match c.extension with
  | some e => if e.isEmpty then none else some e
  | none => none

/-- Flow ids of revision 1: FolderFlow sets
`FolderFlow:${source}#${extension}` when the extension is truthy and
`FolderFlow:${source}` otherwise (lines 28-30); FileFlow sets
`FileFlow:${source}` (line 69); VoidFileFlow sets
`VoidFileFlow:${filePath}` (line 81). -/
def FlowV1.flowId : FlowV1 → String
  | .folder c =>
    match c.extFilter with
    | some e => "FolderFlow:" ++ (c.source ++ ("#" ++ e))
    | none => "FolderFlow:" ++ c.source
  | .file c => "FileFlow:" ++ c.source
  | .voidFile p => "VoidFileFlow:" ++ p

/-- The VoidFlow variant of revision 2 (lines 322-332): its id is the
constant string `VoidFlow`, independent of the configured file path. -/
def voidFlowV2Id (filePath : String) : String :=
  let _ := filePath
  "VoidFlow"

/-- Filesystem operations a Flow's execute may perform, recorded as a
trace. -/
inductive FsOp where
  | mkdirRec : String → FsOp
  | findFiles : String → Option String → FsOp
deriving DecidableEq, Repr

/-- Flow.execute of revision 1, parametrized by the filesystem (`find` maps
a root and optional extension filter to the emitted lines).  FolderFlow
(lines 33-57) always performs `mkdir -p dest`, then either returns the
scalar pair or runs `find` and keeps the non-empty lines; FileFlow
(lines 72-74) returns its configuration unchanged with no filesystem
access; VoidFileFlow (lines 84-86) returns its path and no destination. -/
def FlowV1.execute (find : String → Option String → List String) :
    FlowV1 → List FsOp × (Sel × Sel)
  | .folder c =>
    if c.expand then
      ([.mkdirRec c.dest, .findFiles c.source c.extFilter],
       (.arr ((find c.source c.extFilter).filter (fun l => !l.isEmpty)), .str c.dest))
    else
      ([.mkdirRec c.dest], (.str c.source, .str c.dest))
  | .file c => ([], (.str c.source, .str c.dest))
  | .voidFile p => ([], (.str p, .undef))

deriving instance DecidableEq for Except

/-- One step of the build loop, with its externally determined outcomes:
the flow's id, the result of `flow.execute()` (an exception models a
filesystem failure during resolution), and whether `runner.run` throws. -/
structure StepExec where
  flowId : String
  resolve : Except String (Sel × Sel)
  runnerError : Option String
deriving DecidableEq, Repr

/-- Outcome of the step loop of Project.build (revision 1, lines 177-179):
the runner invocations actually made (flow id with the arguments passed
to `runner.run`), the final `flows` map, and the first error, if any. -/
structure BuildOutcome where
  invocations : List (String × Sel × Sel)
  flows : FlowsMap
  error : Option String
deriving DecidableEq, Repr

/-- The step loop of Project.build (revision 1, lines 177-179):
`for (const {runner, flow} of this.steps) await this.executeStep(runner, flow)`.
Each iteration awaits executeStep; an exception thrown by the flow's
execute or by the runner propagates out of the loop, skipping the
remaining steps. -/
def buildLoop : List StepExec → FlowsMap → BuildOutcome
  | [], fl => ⟨[], fl, none⟩
  | s :: rest, fl =>
    match s.resolve with
    | .error e => ⟨[], fl, some e⟩
    | .ok res =>
      let step := executeStepCore fl s.flowId res
      match s.runnerError with
      | some e => ⟨[(s.flowId, step.2)], step.1, some e⟩
      | none =>
        let out := buildLoop rest step.1
        ⟨(s.flowId, step.2) :: out.invocations, out.flows, out.error⟩

/-- Constructor configuration of revision 3's FolderFlow (lines 500-508):
`{source, dest, expand?}` (no extension field in that revision). -/
structure FolderConfigV3 where
  source : String
  dest : String
  expand : Bool
deriving DecidableEq, Repr

/-- The Flow variants of revision 3: FolderFlow, FileFlow, and
VoidFileFlow.  VoidFileFlow stores its single constructor argument as
`filePath`; after a manifest decode that argument is absent, so the
field is an Option. -/
inductive FlowV3 where
  | folder : FolderConfigV3 → FlowV3
  | file : FileConfig → FlowV3
  | voidFile : Option String → FlowV3
deriving DecidableEq, Repr

/-- Whether a revision-3 flow is the VoidFileFlow variant. -/
def FlowV3.isVoidFile : FlowV3 → Bool
  | .voidFile _ => true
  | _ => false

/-- The Runner variants of revision 3: only CopyRunner, which carries no
state (its constructor takes no arguments, lines 570-575). -/
inductive RunnerV3 where
  | copy : RunnerV3
deriving DecidableEq, Repr

/-- A (runner, flow) step of revision 3's Project. -/
structure StepV3 where
  runner : RunnerV3
  flow : FlowV3
deriving DecidableEq, Repr

/-- Revision 3's Project state as touched by the manifest codec: name,
dependency map, per-flow tracked file lists (each `Set` in its iteration
order), and the ordered steps. -/
structure ProjectV3 where
  name : String
  dependencies : List (String × String)
  flows : FlowsMap
  steps : List StepV3
deriving DecidableEq, Repr

/-- The JSON value stored under a step's `config` key: the constructor
configuration object of the flow that was encoded (runners carry none). -/
inductive ConfigJson where
  | folderCfg : FolderConfigV3 → ConfigJson
  | fileCfg : FileConfig → ConfigJson
deriving DecidableEq, Repr

/-- One `{className, config}` record in a manifest's `steps` array.
`config` is `'config' in obj ? obj.config : undefined` at encode time
(revision 3, lines 747-756). -/
structure EncodedClass where
  className : String
  config : Option ConfigJson
deriving DecidableEq, Repr

/-- One encoded step: `{runner: {className, config}, flow: {className, config}}`. -/
structure EncodedStep where
  runner : EncodedClass
  flow : EncodedClass
deriving DecidableEq, Repr

/-- The manifest document (bao.manifest.json) produced by revision 3's
Project.toJSON: name, dependencies, the flows map with each set written
as an array, the encoded steps, and tmpPath. -/
structure ManifestDoc where
  name : String
  dependencies : List (String × String)
  flows : FlowsMap
  steps : List EncodedStep
  tmpPath : String
deriving DecidableEq, Repr

/-- Encoding of a step's flow (revision 3, lines 752-755): the class name
via `Object.getPrototypeOf(flow).constructor.name`, and the `config`
property when the object has one.  FolderFlow and FileFlow store their
constructor argument in `config`; VoidFileFlow stores it in `filePath`,
so its encoding carries no config. -/
def encodeFlow : FlowV3 → EncodedClass
  | .folder c => ⟨"FolderFlow", some (.folderCfg c)⟩
  | .file c => ⟨"FileFlow", some (.fileCfg c)⟩
  | .voidFile _ => ⟨"VoidFileFlow", none⟩

/-- Encoding of a step's runner (revision 3, lines 748-751): CopyRunner
has no `config` property. -/
def encodeRunner : RunnerV3 → EncodedClass
  | .copy => ⟨"CopyRunner", none⟩

/-- Project.toJSON (revision 3, lines 736-763). -/
def projectToJSON (p : ProjectV3) : ManifestDoc :=
  ⟨p.name, p.dependencies, p.flows,
   p.steps.map (fun s => ⟨encodeRunner s.runner, encodeFlow s.flow⟩),
   "./.bao_tmp"⟩

/-- The caller-supplied registry of `loadFromManifest`: the constructors
passed under `config.runners` and `config.flows`, identified by their
class names. -/
structure Registry where
  runners : List String
  flows : List String
deriving DecidableEq, Repr

/-- The error message thrown when a class name is missing from the
registry (revision 3, lines 705-707 and 714-716). -/
def classNotFoundMsg (c area : String) : String :=
  "could not find '" ++ (c ++ ("' on '" ++ (area ++ ("', perhaps '" ++ (c ++ "' is not defined on your config?")))))

/-- The runtime error raised when a constructor found in the registry is
applied to a config of the wrong shape (e.g. reading a property of
`undefined`). -/
def constructorTypeError : String :=
  "TypeError"

/-- Applying a flow constructor found by name to the stored config.
`new VoidFileFlow(config)` stores the (absent) argument as `filePath`;
FolderFlow and FileFlow read fields of their config object and crash on
a missing or mismatched one. -/
def constructFlow : String → Option ConfigJson → Option FlowV3
  | "FolderFlow", some (.folderCfg c) => some (.folder c)
  | "FileFlow", some (.fileCfg c) => some (.file c)
  | "VoidFileFlow", _ => some (.voidFile none)
  | _, _ => none

/-- Applying a runner constructor found by name: CopyRunner ignores its
argument (its constructor takes none). -/
def constructRunner : String → Option ConfigJson → Option RunnerV3
  | "CopyRunner", _ => some .copy
  | _, _ => none

/-- Decoding one manifest step (revision 3, lines 698-721): look the
runner's class name up in `config.runners` and instantiate it, then the
flow's class name in `config.flows`, throwing the class-not-found error
when a lookup fails. -/
def decodeStep (reg : Registry) (es : EncodedStep) : Except String StepV3 :=
  if reg.runners.contains es.runner.className then
    match constructRunner es.runner.className es.runner.config with
    | none => .error constructorTypeError
    | some r =>
      if reg.flows.contains es.flow.className then
        match constructFlow es.flow.className es.flow.config with
        | none => .error constructorTypeError
        | some f => .ok ⟨r, f⟩
      else .error (classNotFoundMsg es.flow.className "config.flows")
  else .error (classNotFoundMsg es.runner.className "config.runners")

/-- `manifest.steps.map(...)`: decoding stops at the first throwing step. -/
def decodeSteps (reg : Registry) : List EncodedStep → Except String (List StepV3)
  | [] => .ok []
  | e :: es =>
    match decodeStep reg e with
    | .error err => .error err
    | .ok s =>
      match decodeSteps reg es with
      | .error err => .error err
      | .ok ss => .ok (s :: ss)

/-- Project.loadFromManifest (revision 3, lines 687-729), with the
filesystem read modelled as an optional document: a missing manifest
file throws `manifestFileNotfound` (line 694); otherwise the steps are
decoded against the registry and the Project is rebuilt from the
document's fields. -/
def loadFromManifest (file : Option ManifestDoc) (reg : Registry) :
    Except String ProjectV3 :=
  match file with
  | none => .error "manifestFileNotfound"
  | some m =>
    match decodeSteps reg m.steps with
    | .error e => .error e
    | .ok steps => .ok ⟨m.name, m.dependencies, m.flows, steps⟩

end Bao

namespace Bao

theorem mem_dedupGo (a : String) :
    ∀ (l seen : List String), a ∈ dedupGo l seen ↔ a ∈ l ∧ a ∉ seen := by
  intro l
  induction l with
  | nil => intro seen; simp [dedupGo]
  | cons x xs ih =>
    intro seen
    by_cases hx : x ∈ seen
    · rw [dedupGo, if_pos (List.elem_iff.mpr hx), ih, List.mem_cons]
      constructor
      · rintro ⟨h1, h2⟩
        exact ⟨Or.inr h1, h2⟩
      · rintro ⟨h1 | h1, h2⟩
        · exact absurd (h1 ▸ hx) h2
        · exact ⟨h1, h2⟩
    · rw [dedupGo, if_neg (fun hc => hx (List.elem_iff.mp hc)), List.mem_cons, List.mem_cons, ih]
      constructor
      · rintro (rfl | ⟨h1, h2⟩)
        · exact ⟨Or.inl rfl, hx⟩
        · exact ⟨Or.inr h1, fun hs => h2 (List.mem_cons_of_mem x hs)⟩
      · rintro ⟨h0 | h1, h2⟩
        · exact Or.inl h0
        · by_cases hax : a = x
          · exact Or.inl hax
          · refine Or.inr ⟨h1, fun hc => ?_⟩
            rcases List.mem_cons.mp hc with h | h
            · exact hax h
            · exact h2 h

theorem nodup_dedupGo : ∀ (l seen : List String), (dedupGo l seen).Nodup := by
  intro l
  induction l with
  | nil => intro seen; simp [dedupGo]
  | cons x xs ih =>
    intro seen
    by_cases hx : x ∈ seen
    · simpa [dedupGo, List.elem_iff, hx] using ih seen
    · rw [dedupGo, if_neg (fun hc => hx (List.elem_iff.mp hc))]
      refine List.nodup_cons.mpr ⟨fun hm => ?_, ih _⟩
      exact ((mem_dedupGo x xs (x :: seen)).mp hm).2 (List.mem_cons_self x seen)

theorem mem_dedupKeepFirst (a : String) (l : List String) :
    a ∈ dedupKeepFirst l ↔ a ∈ l := by
  simp [dedupKeepFirst, mem_dedupGo]

theorem nodup_dedupKeepFirst (l : List String) : (dedupKeepFirst l).Nodup :=
  nodup_dedupGo l []

theorem lookupFlows_updateFlows_self (m : FlowsMap) (k : String) (v : List String) :
    lookupFlows (updateFlows m k v) k = some v := by
  induction m with
  | nil => simp [updateFlows, lookupFlows]
  | cons e rest ih =>
    by_cases h : e.1 == k
    · simp [updateFlows, lookupFlows, h, List.find?]
    · simpa [updateFlows, lookupFlows, h, List.find?] using ih

/-- C1: for every Project flows map, flow identifier, and list of file
paths newly resolved for that flow, after executeStep merges the
resolution the tracked set under that identifier contains exactly the
paths of the new resolution (previously tracked paths not present in it
are dropped), each path occurs at most once, and the runner is invoked
with exactly this deduplicated list and the resolved destination. -/
theorem executeStep_tracked_set_is_new_resolution
    (fl : FlowsMap) (id : String) (files : List String) (dest : Sel) :
    (∀ p, p ∈ ((lookupFlows (executeStepCore fl id (.arr files, dest)).1 id).getD [])
      ↔ p ∈ files) ∧
    ((lookupFlows (executeStepCore fl id (.arr files, dest)).1 id).getD []).Nodup ∧
    (executeStepCore fl id (.arr files, dest)).2 =
      (.arr ((lookupFlows (executeStepCore fl id (.arr files, dest)).1 id).getD []), dest) := by
  have hlook :
      lookupFlows (executeStepCore fl id (.arr files, dest)).1 id =
        some (dedupKeepFirst
          ((((lookupFlows fl id).getD []) ++ files).filter (fun f => files.contains f))) := by
    simp only [executeStepCore]
    exact lookupFlows_updateFlows_self fl id _
  refine ⟨fun p => ?_, ?_, ?_⟩
  · rw [hlook]
    simp only [Option.getD_some, mem_dedupKeepFirst, List.mem_filter, List.mem_append,
      List.elem_iff]
    constructor
    · rintro ⟨_, h⟩
      exact h
    · intro h
      exact ⟨Or.inr h, h⟩
  · rw [hlook]
    exact nodup_dedupKeepFirst _
  · rw [hlook]
    simp only [executeStepCore, Option.getD_some]

/-- C10: for every flows map and every step whose flow resolves to a
non-array source selector (a single path or an absent one, as FileFlow
and VoidFileFlow produce), executeStep leaves the flows map entirely
unchanged and invokes the runner with the resolution as produced; only
array-valued resolutions create or update an entry. -/
theorem executeStep_scalar_resolution_frame
    (fl : FlowsMap) (id : String) (src dst : Sel) (h : src.isArr = false) :
    executeStepCore fl id (src, dst) = (fl, (src, dst)) := by
  cases src with
  | undef => rfl
  | str s => rfl
  | arr l => simp [Sel.isArr] at h

/-- Witness for C10 at a concrete scalar resolution. -/
theorem executeStep_scalar_resolution_frame_witness :
    executeStepCore [("FileFlow:a", ["x"])] "FileFlow:a" (.str "a", .str "b") =
      ([("FileFlow:a", ["x"])], (.str "a", .str "b")) :=
  executeStep_scalar_resolution_frame [("FileFlow:a", ["x"])] "FileFlow:a"
    (.str "a") (.str "b") rfl

/-- C9: CopyRunner.run with the empty string as source (or as
destination) performs no copy and returns successfully, emitting only
the missing-selector diagnostic, exactly as for an absent selector. -/
theorem copyRunner_empty_string_selector_skips :
    (∀ d, copyRunnerRun (.str "") d = ⟨[noSelectorMsg], [], none⟩ ∧
      copyRunnerRun (.str "") d = copyRunnerRun .undef d) ∧
    (∀ s, copyRunnerRun s (.str "") = ⟨[noSelectorMsg], [], none⟩ ∧
      copyRunnerRun s (.str "") = copyRunnerRun s .undef) := by
  have h0 : ("" : String).isEmpty = true := rfl
  constructor
  · intro d
    constructor
    · simp [copyRunnerRun, Sel.truthy, h0]
    · simp [copyRunnerRun, Sel.truthy, h0]
  · intro s
    constructor
    · simp [copyRunnerRun, Sel.truthy, h0]
    · simp [copyRunnerRun, Sel.truthy, h0]

theorem copyPairLoop_copies (s : List String) :
    ∀ d, (copyPairLoop s d).2.1 = s.zip d := by
  induction s with
  | nil => intro d; simp [copyPairLoop]
  | cons x xs ih =>
    intro d
    cases d with
    | nil => simp [copyPairLoop]
    | cons y ys => simp [copyPairLoop, ih]

theorem copyPairLoop_error (s : List String) :
    ∀ d, (copyPairLoop s d).2.2 =
      (if s.length ≤ d.length then none else some invalidArgMsg) := by
  induction s with
  | nil => intro d; simp [copyPairLoop]
  | cons x xs ih =>
    intro d
    cases d with
    | nil => simp [copyPairLoop]
    | cons y ys => simpa [copyPairLoop, Nat.succ_le_succ_iff] using ih ys

/-- C3 counterexample: with list source `[]` and list destination `["x"]`
of different lengths, CopyRunner.run raises no error at all (an empty
array is truthy, so the guard passes, and the index loop runs zero
times), contradicting the claimed immediate configuration error. -/
theorem copyRunner_length_mismatch_counterexample :
    copyRunnerRun (.arr []) (.arr ["x"]) = ⟨[], [], none⟩ ∧
    ([] : List String).length ≠ ["x"].length := by
  constructor
  · rfl
  · decide

/-- C3 amended: CopyRunner.run performs no length validation on list
source and list destination.  It attempts one copy per source index: the
copies handed to `cp` are exactly `source.zip dest`, and it succeeds
whenever the source is no longer than the destination; when the source
is strictly longer, it fails at the first out-of-range index with the
runtime invalid-argument error (undefined destination), which names no
identifier.  It is never retried. -/
theorem copyRunner_list_list_no_length_check (s d : List String) :
    (copyRunnerRun (.arr s) (.arr d)).copies = s.zip d ∧
    (copyRunnerRun (.arr s) (.arr d)).error =
      (if s.length ≤ d.length then none else some invalidArgMsg) := by
  constructor
  · simp [copyRunnerRun, Sel.truthy, copyPairLoop_copies]
  · simp [copyRunnerRun, Sel.truthy, copyPairLoop_error]

/-- C8 counterexample: with scalar source and the empty list as
destination, CopyRunner.run performs no copy and fails with the runtime
invalid-argument error (`dest[0]` is undefined), contradicting the
claimed single successful copy; and with the empty string as scalar
source it performs no copy at all (the guard treats it as absent). -/
theorem copyRunner_scalar_list_counterexample :
    copyRunnerRun (.str "a") (.arr []) =
      ⟨[scalarListWarning, copyMsg "a" "undefined"], [], some invalidArgMsg⟩ ∧
    copyRunnerRun (.str "") (.arr ["x"]) = ⟨[noSelectorMsg], [], none⟩ := by
  constructor
  · rfl
  · rfl

/-- C8 amended: for every non-empty scalar source path and every
non-empty list destination, CopyRunner.run performs exactly one copy,
from the source to the first element of the destination list, emits the
degraded-case warning diagnostic, and does not fail. -/
theorem copyRunner_scalar_list_first_dest (s d0 : String) (ds : List String)
    (h : s ≠ "") :
    copyRunnerRun (.str s) (.arr (d0 :: ds)) =
      ⟨[scalarListWarning, copyMsg s d0], [(s, d0)], none⟩ := by
  have hs : s.isEmpty = false := by
    cases he : s.isEmpty
    · rfl
    · exact absurd ((String.isEmpty_iff s).mp he) h
  simp [copyRunnerRun, Sel.truthy, hs]

/-- Witness for C8 amended at a concrete source and destination list. -/
theorem copyRunner_scalar_list_first_dest_witness :
    copyRunnerRun (.str "a") (.arr ["x", "y"]) =
      ⟨[scalarListWarning, copyMsg "a" "x"], [("a", "x")], none⟩ :=
  copyRunner_scalar_list_first_dest "a" "x" ["y"] (by decide)

theorem buildLoop_invocation_order (steps : List StepExec) : ∀ fl : FlowsMap,
    (buildLoop steps fl).invocations.map Prod.fst =
      (steps.map StepExec.flowId).take (buildLoop steps fl).invocations.length := by
  induction steps with
  | nil => intro fl; simp [buildLoop]
  | cons s rest ih =>
    intro fl
    cases hres : s.resolve with
    | error e => simp [buildLoop, hres]
    | ok res =>
      cases hr : s.runnerError with
      | some e => simp [buildLoop, hres, hr]
      | none => simp [buildLoop, hres, hr, List.take_succ_cons, ih]

theorem buildLoop_error_stops (s : StepExec) (post : List StepExec) :
    ∀ (pre : List StepExec) (fl : FlowsMap),
    (buildLoop (pre ++ [s]) fl).error.isSome = true →
    buildLoop (pre ++ s :: post) fl = buildLoop (pre ++ [s]) fl := by
  intro pre
  induction pre with
  | nil =>
    intro fl h
    simp only [List.nil_append] at h ⊢
    cases hres : s.resolve with
    | error e => simp [buildLoop, hres]
    | ok res =>
      cases hr : s.runnerError with
      | some e => simp [buildLoop, hres, hr]
      | none => simp [buildLoop, hres, hr] at h
  | cons p pre ih =>
    intro fl h
    have hsplit1 : (p :: pre) ++ s :: post = p :: (pre ++ s :: post) := rfl
    have hsplit2 : (p :: pre) ++ [s] = p :: (pre ++ [s]) := rfl
    rw [hsplit2] at h
    rw [hsplit1, hsplit2]
    cases hres : p.resolve with
    | error e => simp [buildLoop, hres]
    | ok res =>
      cases hr : p.runnerError with
      | some e => simp [buildLoop, hres, hr]
      | none =>
        simp only [buildLoop, hres, hr] at h ⊢
        rw [ih _ h]

/-- C4: the step loop of build() executes steps strictly in declared
order, one at a time — the runner invocations made are always the ids of
a prefix of the declared steps, in order — and a step that fails (in its
flow's resolution or its runner) ends the build there: appending further
steps changes nothing about the outcome (their flows are never resolved,
their runners never invoked) and the failing step's error is the loop's
result. -/
theorem build_steps_sequential_fail_fast :
    (∀ (steps : List StepExec) (fl : FlowsMap),
      (buildLoop steps fl).invocations.map Prod.fst =
        (steps.map StepExec.flowId).take (buildLoop steps fl).invocations.length) ∧
    (∀ (pre : List StepExec) (s : StepExec) (post : List StepExec) (fl : FlowsMap),
      (buildLoop (pre ++ [s]) fl).error.isSome = true →
      buildLoop (pre ++ s :: post) fl = buildLoop (pre ++ [s]) fl) :=
  ⟨fun steps fl => buildLoop_invocation_order steps fl,
   fun pre s post fl h => buildLoop_error_stops s post pre fl h⟩

/-- Witness for C4 at a concrete failing step followed by a later step:
the later step contributes nothing to the outcome. -/
theorem build_steps_sequential_fail_fast_witness :
    buildLoop [⟨"f1", .ok (.str "a", .str "b"), some "boom"⟩,
               ⟨"f2", .ok (.str "c", .str "d"), none⟩] [] =
      buildLoop [⟨"f1", .ok (.str "a", .str "b"), some "boom"⟩] [] :=
  build_steps_sequential_fail_fast.2 [] ⟨"f1", .ok (.str "a", .str "b"), some "boom"⟩
    [⟨"f2", .ok (.str "c", .str "d"), none⟩] [] (by decide)

theorem string_eq_of_data_eq (s t : String) (h : s.data = t.data) : s = t := by
  cases s
  cases t
  exact congrArg String.mk h

theorem string_append_cancel_left (p a b : String) (h : p ++ a = p ++ b) : a = b := by
  have hd : p.data ++ a.data = p.data ++ b.data := by
    rw [← String.data_append, ← String.data_append, h]
  exact string_eq_of_data_eq a b (List.append_cancel_left hd)

theorem string_append_cancel_right (a b s : String) (h : a ++ s = b ++ s) : a = b := by
  have hd : a.data ++ s.data = b.data ++ s.data := by
    rw [← String.data_append, ← String.data_append, h]
  exact string_eq_of_data_eq a b (List.append_cancel_right hd)

theorem couldNotFindMsg_ne_manifestSignal (t : String) :
    "could not find '" ++ t ≠ "manifestFileNotfound" := by
  intro h
  have h2 : (some 'c' : Option Char) = some 'm' :=
    congrArg (fun s => s.data.get? 0) h
  exact absurd h2 (by decide)

theorem classNotFoundMsg_ne_manifestSignal (c area : String) :
    classNotFoundMsg c area ≠ "manifestFileNotfound" :=
  couldNotFindMsg_ne_manifestSignal _

theorem constructorTypeError_ne_manifestSignal :
    constructorTypeError ≠ "manifestFileNotfound" := by
  decide

theorem decodeStep_error_ne_manifestSignal (reg : Registry) (es : EncodedStep)
    (e : String) (h : decodeStep reg es = .error e) : e ≠ "manifestFileNotfound" := by
  by_cases h1 : reg.runners.contains es.runner.className = true
  · cases hcr : constructRunner es.runner.className es.runner.config with
    | none =>
      simp only [decodeStep, h1, if_true, hcr, Except.error.injEq] at h
      exact h ▸ constructorTypeError_ne_manifestSignal
    | some r =>
      by_cases h2 : reg.flows.contains es.flow.className = true
      · cases hcf : constructFlow es.flow.className es.flow.config with
        | none =>
          simp only [decodeStep, h1, if_true, hcr, h2, hcf, Except.error.injEq] at h
          exact h ▸ constructorTypeError_ne_manifestSignal
        | some f =>
          simp only [decodeStep, h1, if_true, hcr, h2, hcf] at h
          cases h
      · simp only [decodeStep, h1, if_true, hcr, h2, if_false, Bool.false_eq_true,
          Except.error.injEq] at h
        exact h ▸ classNotFoundMsg_ne_manifestSignal _ _
  · simp only [decodeStep, h1, if_false, Bool.false_eq_true, Except.error.injEq] at h
    exact h ▸ classNotFoundMsg_ne_manifestSignal _ _

theorem decodeSteps_error_ne_manifestSignal (reg : Registry) :
    ∀ (es : List EncodedStep) (e : String),
    decodeSteps reg es = .error e → e ≠ "manifestFileNotfound" := by
  intro es
  induction es with
  | nil => intro e h; cases h
  | cons x xs ih =>
    intro e h
    unfold decodeSteps at h
    cases hx : decodeStep reg x with
    | error err =>
      rw [hx] at h
      cases h
      exact decodeStep_error_ne_manifestSignal reg x _ hx
    | ok s =>
      rw [hx] at h
      cases hxs : decodeSteps reg xs with
      | error err => rw [hxs] at h; cases h; exact ih _ hxs
      | ok ss => rw [hxs] at h; cases h

/-- C5: when the manifest file does not exist, loadFromManifest fails
with the distinguished `manifestFileNotfound` signal and with no other
error, and every other error the codec can raise on an existing document
(class-not-found for runners or flows, constructor type errors) differs
from that signal, so callers can catch exactly this condition. -/
theorem loadFromManifest_missing_signal_distinguished :
    (∀ reg, loadFromManifest none reg = .error "manifestFileNotfound") ∧
    (∀ (doc : ManifestDoc) (reg : Registry) (e : String),
      loadFromManifest (some doc) reg = .error e → e ≠ "manifestFileNotfound") := by
  constructor
  · intro reg
    rfl
  · intro doc reg e h
    simp only [loadFromManifest] at h
    cases hd : decodeSteps reg doc.steps with
    | error err =>
      rw [hd] at h
      simp only [Except.error.injEq] at h
      exact h ▸ decodeSteps_error_ne_manifestSignal reg doc.steps _ hd
    | ok ss =>
      rw [hd] at h
      cases h

/-- Witness for C5 at a concrete document decoded against an empty
registry: the class-not-found error differs from the missing-manifest
signal. -/
theorem loadFromManifest_missing_signal_distinguished_witness :
    classNotFoundMsg "CopyRunner" "config.runners" ≠ "manifestFileNotfound" :=
  loadFromManifest_missing_signal_distinguished.2
    (projectToJSON ⟨"x", [], [], [⟨.copy, .file ⟨"a", "b"⟩⟩]⟩) ⟨[], []⟩
    (classNotFoundMsg "CopyRunner" "config.runners") (by decide)

theorem folderTag_ne_fileTag (x y : String) : "FolderFlow:" ++ x ≠ "FileFlow:" ++ y := by
  intro h
  have h2 : (some 'o' : Option Char) = some 'i' :=
    congrArg (fun s => s.data.get? 1) h
  exact absurd h2 (by decide)

theorem folderTag_ne_voidTag (x y : String) : "FolderFlow:" ++ x ≠ "VoidFileFlow:" ++ y := by
  intro h
  have h2 : (some 'F' : Option Char) = some 'V' :=
    congrArg (fun s => s.data.get? 0) h
  exact absurd h2 (by decide)

theorem fileTag_ne_voidTag (x y : String) : "FileFlow:" ++ x ≠ "VoidFileFlow:" ++ y := by
  intro h
  have h2 : (some 'i' : Option Char) = some 'o' :=
    congrArg (fun s => s.data.get? 1) h
  exact absurd h2 (by decide)

theorem folder_flowId_shape (c : FolderConfig) :
    ∃ t, FlowV1.flowId (.folder c) = "FolderFlow:" ++ t := by
  cases he : c.extFilter with
  | none => exact ⟨c.source, by simp [FlowV1.flowId, he]⟩
  | some e => exact ⟨c.source ++ ("#" ++ e), by simp [FlowV1.flowId, he]⟩

theorem extFilter_congr (c c' : FolderConfig) (h : c.extension = c'.extension) :
    c.extFilter = c'.extFilter := by
  simp [FolderConfig.extFilter, h]

/-- C6 counterexample: the revision-2 VoidFlow variant assigns the
constant identifier `VoidFlow` to flows with different file paths, and
the revision-1 FolderFlow identifier conflates a `#` embedded in the
source with the source/extension separator, so two FolderFlows with
different source paths share an identifier. -/
theorem flowId_collision_counterexample :
    (voidFlowV2Id "a" = voidFlowV2Id "b" ∧ ("a" : String) ≠ "b") ∧
    (FlowV1.flowId (.folder ⟨"a#b", "d", false, none⟩) =
       FlowV1.flowId (.folder ⟨"a", "d", false, some "b"⟩) ∧
     ("a#b" : String) ≠ "a") := by
  refine ⟨⟨rfl, by decide⟩, ⟨by decide, by decide⟩⟩

/-- C6 amended: every flow identifier is a pure function of the variant
tag and configuration (no random or time component).  Among the
revision-1 variants, flows of different variant tags always receive
distinct identifiers; FileFlow and VoidFileFlow identifiers determine
the source path; and FolderFlow identifiers determine the source path
between flows carrying the same extension configuration (with different
extension configurations the `#` separator is ambiguous).  The
revision-2 VoidFlow variant instead assigns every flow the constant
identifier `VoidFlow`, so distinct source paths do not receive distinct
identifiers there. -/
theorem flowId_deterministic_and_injective :
    (∀ (c : FolderConfig) (c' : FileConfig),
      FlowV1.flowId (.folder c) ≠ FlowV1.flowId (.file c')) ∧
    (∀ (c : FolderConfig) (p : String),
      FlowV1.flowId (.folder c) ≠ FlowV1.flowId (.voidFile p)) ∧
    (∀ (c : FileConfig) (p : String),
      FlowV1.flowId (.file c) ≠ FlowV1.flowId (.voidFile p)) ∧
    (∀ c c' : FileConfig,
      FlowV1.flowId (.file c) = FlowV1.flowId (.file c') → c.source = c'.source) ∧
    (∀ p p' : String,
      FlowV1.flowId (.voidFile p) = FlowV1.flowId (.voidFile p') → p = p') ∧
    (∀ c c' : FolderConfig, c.extension = c'.extension →
      FlowV1.flowId (.folder c) = FlowV1.flowId (.folder c') → c.source = c'.source) ∧
    (∀ p p', voidFlowV2Id p = voidFlowV2Id p') := by
  refine ⟨?_, ?_, ?_, ?_, ?_, ?_, fun _ _ => rfl⟩
  · intro c c'
    obtain ⟨t, ht⟩ := folder_flowId_shape c
    rw [ht]
    exact folderTag_ne_fileTag t c'.source
  · intro c p
    obtain ⟨t, ht⟩ := folder_flowId_shape c
    rw [ht]
    exact folderTag_ne_voidTag t p
  · intro c p
    exact fileTag_ne_voidTag c.source p
  · intro c c' h
    exact string_append_cancel_left "FileFlow:" c.source c'.source h
  · intro p p' h
    exact string_append_cancel_left "VoidFileFlow:" p p' h
  · intro c c' hext h
    have hef := extFilter_congr c c' hext
    cases he : c.extFilter with
    | none =>
      rw [he] at hef
      have h1 : FlowV1.flowId (.folder c) = "FolderFlow:" ++ c.source := by
        simp [FlowV1.flowId, he]
      have h2 : FlowV1.flowId (.folder c') = "FolderFlow:" ++ c'.source := by
        simp [FlowV1.flowId, ← hef]
      rw [h1, h2] at h
      exact string_append_cancel_left _ _ _ h
    | some e =>
      rw [he] at hef
      have h1 : FlowV1.flowId (.folder c) = "FolderFlow:" ++ (c.source ++ ("#" ++ e)) := by
        simp [FlowV1.flowId, he]
      have h2 : FlowV1.flowId (.folder c') = "FolderFlow:" ++ (c'.source ++ ("#" ++ e)) := by
        simp [FlowV1.flowId, ← hef]
      rw [h1, h2] at h
      exact string_append_cancel_right _ _ _ (string_append_cancel_left _ _ _ h)

/-- Witness for C6 amended: the FileFlow and FolderFlow injectivity
conjuncts applied at concrete configurations. -/
theorem flowId_deterministic_and_injective_witness :
    ("assets/a" : String) = "assets/a" ∧ ("s" : String) = "s" :=
  ⟨flowId_deterministic_and_injective.2.2.2.1 ⟨"assets/a", "x"⟩ ⟨"assets/a", "y"⟩ (by decide),
   flowId_deterministic_and_injective.2.2.2.2.2.1 ⟨"s", "d1", false, some "t"⟩
     ⟨"s", "d2", true, some "t"⟩ (by decide) (by decide)⟩

/-- C7 counterexample: revision 1's FileFlow.execute returns the source
as a scalar string, not as a one-element list. -/
theorem fileFlow_returns_scalar_counterexample :
    FlowV1.execute (fun _ _ => []) (.file ⟨"a", "b"⟩) = ([], (.str "a", .str "b")) ∧
    Sel.str "a" ≠ Sel.arr ["a"] :=
  ⟨rfl, by decide⟩

/-- C7 amended: for every FileFlow configuration, execute returns the
configured source and destination unchanged — as scalar paths, not
wrapped in a list — and performs no filesystem operation (its trace is
empty, for every filesystem). -/
theorem fileFlow_execute_unchanged_no_fs
    (find : String → Option String → List String) (c : FileConfig) :
    FlowV1.execute find (.file c) = ([], (.str c.source, .str c.dest)) := rfl

theorem decodeSteps_encode (reg : Registry) :
    ∀ (steps : List StepV3),
    (∀ st ∈ steps, reg.runners.contains (encodeRunner st.runner).className = true) →
    (∀ st ∈ steps, reg.flows.contains (encodeFlow st.flow).className = true) →
    (∀ st ∈ steps, st.flow.isVoidFile = false) →
    decodeSteps reg (steps.map (fun s => ⟨encodeRunner s.runner, encodeFlow s.flow⟩)) =
      .ok steps := by
  intro steps
  induction steps with
  | nil => intro _ _ _; rfl
  | cons st rest ih =>
    intro hr hf hv
    have hr1 := hr st (List.mem_cons_self st rest)
    have hf1 := hf st (List.mem_cons_self st rest)
    have hv1 := hv st (List.mem_cons_self st rest)
    have hstep : decodeStep reg ⟨encodeRunner st.runner, encodeFlow st.flow⟩ = .ok st := by
      obtain ⟨r, f⟩ := st
      cases r
      cases f with
      | folder c =>
        simp only [encodeRunner, encodeFlow] at hr1 hf1 ⊢
        have hr2 : "CopyRunner" ∈ reg.runners := List.elem_iff.mp hr1
        have hf2 : "FolderFlow" ∈ reg.flows := List.elem_iff.mp hf1
        simp [decodeStep, hr2, hf2, constructRunner, constructFlow]
      | file c =>
        simp only [encodeRunner, encodeFlow] at hr1 hf1 ⊢
        have hr2 : "CopyRunner" ∈ reg.runners := List.elem_iff.mp hr1
        have hf2 : "FileFlow" ∈ reg.flows := List.elem_iff.mp hf1
        simp [decodeStep, hr2, hf2, constructRunner, constructFlow]
      | voidFile p =>
        exact absurd hv1 (by simp [FlowV3.isVoidFile])
    have htail := ih (fun x hm => hr x (List.mem_cons_of_mem st hm))
      (fun x hm => hf x (List.mem_cons_of_mem st hm))
      (fun x hm => hv x (List.mem_cons_of_mem st hm))
    simp only [List.map_cons, decodeSteps, hstep, htail]

/-- C2 counterexample: a Project with a VoidFileFlow step round-trips
through toJSON and loadFromManifest (with a registry containing every
class) into a Project whose step lost its file path — VoidFileFlow keeps
its constructor argument in `filePath`, not `config`, so toJSON writes
no config and the decoded constructor receives none — hence the decoded
steps differ from the originals. -/
theorem manifest_roundtrip_voidFlow_counterexample :
    loadFromManifest
        (some (projectToJSON ⟨"bao", [], [], [⟨.copy, .voidFile (some "x")⟩]⟩))
        ⟨["CopyRunner"], ["FolderFlow", "FileFlow", "VoidFileFlow"]⟩ =
      .ok ⟨"bao", [], [], [⟨.copy, .voidFile none⟩]⟩ ∧
    (⟨"bao", [], [], [⟨.copy, .voidFile none⟩]⟩ : ProjectV3) ≠
      ⟨"bao", [], [], [⟨.copy, .voidFile (some "x")⟩]⟩ := by
  refine ⟨by decide, by decide⟩

/-- C2 amended: for every Project whose steps use only classes present
in the caller-supplied registry and whose flows carry their constructor
arguments in a `config` property (FolderFlow and FileFlow — i.e. no
VoidFileFlow step), encoding with toJSON and decoding with
loadFromManifest under the same registry reproduces the Project exactly:
same name, same dependency map, same flow identifiers with the same
tracked file sets, and the same steps in the same order. -/
theorem manifest_roundtrip_config_classes (p : ProjectV3) (reg : Registry)
    (hr : ∀ st ∈ p.steps, reg.runners.contains (encodeRunner st.runner).className = true)
    (hf : ∀ st ∈ p.steps, reg.flows.contains (encodeFlow st.flow).className = true)
    (hv : ∀ st ∈ p.steps, st.flow.isVoidFile = false) :
    loadFromManifest (some (projectToJSON p)) reg = .ok p := by
  simp only [loadFromManifest, projectToJSON]
  rw [decodeSteps_encode reg p.steps hr hf hv]

/-- Witness for C2 amended: a concrete two-step Project round-trips
exactly under the full registry. -/
theorem manifest_roundtrip_config_classes_witness :
    loadFromManifest
        (some (projectToJSON ⟨"bao", [("left-pad", "1.0.0")], [("FolderFlow:s", ["s/a"])],
          [⟨.copy, .folder ⟨"s", "d", true⟩⟩, ⟨.copy, .file ⟨"a", "b"⟩⟩]⟩))
        ⟨["CopyRunner"], ["FolderFlow", "FileFlow", "VoidFileFlow"]⟩ =
      .ok ⟨"bao", [("left-pad", "1.0.0")], [("FolderFlow:s", ["s/a"])],
          [⟨.copy, .folder ⟨"s", "d", true⟩⟩, ⟨.copy, .file ⟨"a", "b"⟩⟩]⟩ :=
  manifest_roundtrip_config_classes _ _ (by decide) (by decide) (by decide)

end Bao
